import Mathlib

/-!
Verification of the structure-consolidation core and scan-session control flow
of the web_security_automation repository.

The Python code is shallowly embedded: Python strings are `List Char`,
Python dicts (insertion-ordered) are association lists, the relevant parts of
`urllib.parse.urlparse` are reimplemented on character lists, and the
consolidator `backend/scripts/update_structure.py` is translated function by
function.  The scanner phase sequencing of `zap.py` is embedded as a trace
semantics over an environment recording which sections raise exceptions.
-/

/-- A Python string, modelled as its list of characters. -/
abbrev Str := List Char

/-- `str.strip()`: remove leading and trailing whitespace. -/
def strip (s : Str) : Str :=
  ((s.dropWhile Char.isWhitespace).reverse.dropWhile Char.isWhitespace).reverse

/-- `str.upper()` (ASCII, as used on form methods). -/
def upper (s : Str) : Str := s.map Char.toUpper

/-- `str.lower()` (ASCII, applied by `urlparse` to the scheme). -/
def lower (s : Str) : Str := s.map Char.toLower

/-- Characters allowed in a URL scheme after the first one
(`urllib.parse.scheme_chars`). -/
def schemeChar (c : Char) : Bool :=
  c.isAlpha || c.isDigit || c = '+' || c = '-' || c = '.'

/-- The components of `urllib.parse.urlparse` that the repository reads:
`scheme`, `netloc` and `path`. -/
structure UrlParts where
  scheme : Str
  netloc : Str
  path : Str
deriving DecidableEq, Repr

/-- Does the string start with an ASCII letter? (`url[0].isascii() and
url[0].isalpha()` in `urlsplit`.) -/
def headIsAlpha : Str → Bool
  | c :: _ => c.isAlpha
  | [] => false

/-- Scheme splitting of `urlsplit`: if the text before the first `:` is a
non-empty run of scheme characters starting with an ASCII letter, it is the
(lowercased) scheme and parsing continues after the colon. -/
def schemeSplit (s : Str) : Str × Str :=
  let pre := s.takeWhile (· ≠ ':')
  if pre.length < s.length ∧ pre ≠ [] ∧ headIsAlpha s ∧ pre.all schemeChar then
    (lower pre, s.drop (pre.length + 1))
  else
    ([], s)

/-- Netloc splitting of `urlsplit`: after the scheme, a leading `//` opens the
network location, which extends to the next `/`, `?` or `#`. -/
def netlocSplit (s : Str) : Str × Str :=
  match s with
  | '/' :: '/' :: rest =>
    (rest.takeWhile (fun c => c ≠ '/' && c ≠ '?' && c ≠ '#'),
     rest.dropWhile (fun c => c ≠ '/' && c ≠ '?' && c ≠ '#'))
  | _ => ([], s)

/-- `_splitparams` of `urlparse`: drop a `;params` suffix from the last path
segment. -/
def splitParams (p : Str) : Str :=
  let pre := (p.reverse.dropWhile (· ≠ '/')).reverse
  let seg := (p.reverse.takeWhile (· ≠ '/')).reverse
  pre ++ seg.takeWhile (· ≠ ';')

/-- `urllib.parse.urlparse`, restricted to the fields the repository uses.
The fragment (after `#`) and the query (after `?`) are split off the path,
and `;params` are removed from the last segment. -/
def urlparse (s : Str) : UrlParts :=
  let (sch, r1) := schemeSplit s
  let (nl, r2) := netlocSplit r1
  { scheme := sch, netloc := nl,
    path := splitParams ((r2.takeWhile (· ≠ '#')).takeWhile (· ≠ '?')) }

/-- `normalize_action` from `backend/scripts/update_structure.py`:
empty actions become `/`; absolute URLs contribute their path; a leading `/`
is added when missing; one trailing `/` is stripped unless the result is
exactly `/`. -/
def normalize_action (action : Str) : Str :=
  if action = [] then ['/']
  else
    let p := urlparse action
    let path := if p.scheme ≠ [] ∧ p.netloc ≠ [] then
        (if p.path = [] then ['/'] else p.path)
      else action
    let path2 := if path.head? = some '/' then path else '/' :: path
    if path2 ≠ ['/'] ∧ path2.getLast? = some '/' then path2.dropLast else path2

/-! ## Data model

JSON records as the consolidator reads them.  `get`-with-default lookups in
the Python code are reflected by storing the defaulted values directly; the
`feedback` key may be absent, which `Option` records.  `extra` stands for any
further keys a form dictionary may carry: the consolidator never reads or
writes them. -/

/-- One `<input>` record of a form (`name`, `type`, `id`, `required`). -/
structure FormInput where
  name : Str := []
  type : Str := []
  id : Str := []
  required : Bool := false
deriving DecidableEq, Repr

/-- One form record of `structure.json`. -/
structure Form where
  action : Str := []
  method : Str := []
  inputs : List FormInput := []
  feedback : Option Str := none
  extra : List (Str × Str) := []
deriving DecidableEq, Repr

/-- One attack-surface record of `endpoints.json` (field-for-field copy of a
scan-engine alert). -/
structure AttackSurface where
  url : Str := []
  param : Str := []
  attack : Str := []
  evidence : Str := []
  risk : Str := []
  confidence : Str := []
  description : Str := []
  solution : Str := []
deriving DecidableEq, Repr

/-! ## Form signatures (`form_signature`) -/

/-- The sorted component type of a signature: `(name, type, required)`
triples ordered lexicographically, as Python `sorted` orders tuples. -/
abbrev Trip := Lex (Str × Lex (Str × Bool))

instance : DecidableEq Trip := inferInstanceAs (DecidableEq (Str × Str × Bool))

/-- The `(name, type, required)` triple of one input, with stripped strings,
as built inside `form_signature`. -/
def inputTriple (i : FormInput) : Trip :=
  toLex (strip i.name, toLex (strip i.type, i.required))

/-- A deduplication signature: `(action.strip(), method.upper().strip(),
sorted triples)`.  Note the action is the raw, *unnormalized* action. -/
abbrev Sig := Str × Str × List Trip

/-- `form_signature` from `update_structure.py`. -/
def form_signature (f : Form) : Sig :=
  (strip f.action, strip (upper f.method),
   List.insertionSort (· ≤ ·) (f.inputs.map inputTriple))

/-- The input `{name:"user", type:"text", required:true}` of the spec's
end-to-end scenario. -/
def userInput : FormInput :=
  { name := "user".data, type := "text".data, required := true }

/-- The form `{action:"/login", method:"POST", inputs:[userInput]}` of the
spec's end-to-end scenario. -/
def loginFormA : Form :=
  { action := "/login".data, method := "POST".data, inputs := [userInput] }

/-! ## Python dicts

`desc_map` is a Python dict: insertion-ordered; assignment to a present key
replaces the value in place, assignment to an absent key appends.  Modelled
as an association list with unique keys. -/

/-- The description map type. -/
abbrev DMap := List (Str × Str)

/-- Dict lookup, `d.get(k)`. -/
def dictGet? : DMap → Str → Option Str
  | [], _ => none
  | kv :: d, k => if kv.1 = k then some kv.2 else dictGet? d k

/-- Dict membership, `k in d`. -/
def dictHasKey : DMap → Str → Bool
  | [], _ => false
  | kv :: d, k => if kv.1 = k then true else dictHasKey d k

/-- Dict assignment, `d[k] = v`: replace in place or append. -/
def dictSet : DMap → Str → Str → DMap
  | [], k, v => [(k, v)]
  | kv :: d, k, v => if kv.1 = k then (k, v) :: d else kv :: dictSet d k v

/-! ## `build_description_map` -/

/-- The path normalization applied inline in both loops of
`build_description_map`: `p.path or '/'`, then strip one trailing slash
unless the path is exactly `/`. -/
def surfacePath (u : Str) : Str :=
  let p := urlparse u
  let path := if p.path = [] then ['/'] else p.path
  if path ≠ ['/'] ∧ path.getLast? = some '/' then path.dropLast else path

/-- First loop of `build_description_map`: attack surfaces with a non-empty
url are keyed by normalized path; a plain dict assignment stores the
description. -/
def surfaceFold (d : DMap) (surfs : List AttackSurface) : DMap :=
  surfs.foldl
    (fun d item => if item.url = [] then d
                   else dictSet d (surfacePath item.url) item.description) d

/-- Second loop of `build_description_map`: bare endpoint strings are added
with an empty description only when their path is not yet a key. -/
def endpointFold (d : DMap) (eps : List Str) : DMap :=
  eps.foldl
    (fun d e => let path := surfacePath e
                if dictHasKey d path then d else dictSet d path []) d

/-- `build_description_map` from `update_structure.py`. -/
def build_description_map (surfs : List AttackSurface) (eps : List Str) : DMap :=
  endpointFold (surfaceFold [] surfs) eps

/-! ## The per-form transformation of `main`'s loop body -/

/-- The exact-match lookup: `desc_map.get(norm_action)` followed by the
truthiness test `if description:`. -/
def exactDesc (d : DMap) (na : Str) : Option Str :=
  match dictGet? d na with
  | some v => if v ≠ [] then some v else none
  | none => none

/-- The fuzzy-match loop: scan `desc_map` in insertion order; take the first
entry whose key and `norm_action` are suffix-related and whose description is
non-empty. -/
def fuzzyDesc (d : DMap) (na : Str) : Option Str :=
  d.findSome? (fun kv =>
    if (List.isSuffixOf na kv.1 = true ∨ List.isSuffixOf kv.1 na = true)
        ∧ kv.2 ≠ [] then some kv.2 else none)

/-- The feedback value written by the loop body: the exact match when
non-empty, else the first non-empty fuzzy match, else the old value
(`setdefault`, with `[]` when the key was absent). -/
def attachFB (d : DMap) (na : Str) (old : Option Str) : Str :=
  match exactDesc d na with
  | some v => v
  | none =>
    match fuzzyDesc d na with
    | some v => v
    | none => old.getD []

/-- The whole loop body applied to one surviving form: the action is replaced
by its normalization and the feedback key is (re)written; nothing else is
touched. -/
def processForm (d : DMap) (f : Form) : Form :=
  { f with action := normalize_action f.action,
           feedback := some (attachFB d (normalize_action f.action) f.feedback) }

/-! ## The deduplication loop of `main` -/

/-- `main`'s loop over `forms`: signatures already seen are dropped,
new ones are processed and appended. -/
def consolidateGo (d : DMap) (seen : List Sig) : List Form → List Form
  | [] => []
  | f :: rest =>
    if form_signature f ∈ seen then consolidateGo d seen rest
    else processForm d f :: consolidateGo d (form_signature f :: seen) rest

/-- The consolidator as a pure transform: forms in, deduplicated and
annotated forms out, for a fixed attack-surface catalog. -/
def consolidate (forms : List Form) (surfs : List AttackSurface)
    (eps : List Str) : List Form :=
  consolidateGo (build_description_map surfs eps) [] forms

/-! ## The end-to-end scenario inputs -/

/-- The form `{action:"http://t/login/", method:"post", inputs:[userInput]}`
of the spec's end-to-end scenario. -/
def loginFormB : Form :=
  { action := "http://t/login/".data, method := "post".data,
    inputs := [userInput] }

/-- The attack surface `{url:"http://t/login", description:"SQLi risk"}` of
the spec's end-to-end scenario. -/
def loginSurface : AttackSurface :=
  { url := "http://t/login".data, description := "SQLi risk".data }

/-! ## The consolidator CLI (`main` of `update_structure.py`)

The file-system interaction of `main` is embedded as a function from the
observable inputs (existence of the two files, their parsed contents) to the
observable outputs (process exit code, diagnostics printed, what was written
to the structure file).  Both missing-file branches are a plain `return` from
`main()`, after which the interpreter exits with status 0. -/

/-- Observable outcome of one run of the consolidator CLI. -/
structure MainResult where
  exitCode : Nat
  printed : List Str
  written : Option (List Form)
deriving DecidableEq, Repr

/-- `main` of `update_structure.py` over an abstract file system. -/
def mainModel (structureExists endpointsExists : Bool) (forms : List Form)
    (surfs : List AttackSurface) (eps : List Str) : MainResult :=
  if structureExists = false then
    { exitCode := 0, printed := ["structure.json not found at".data],
      written := none }
  else if endpointsExists = false then
    { exitCode := 0, printed := ["endpoints.json not found at".data],
      written := none }
  else
    { exitCode := 0,
      printed := ["Loaded forms from".data,
                  "Removed duplicate forms; unique remain".data,
                  "Updated structure.json saved to".data],
      written := some (consolidate forms surfs eps) }

/-! ## The scan session of `zap.py`

`run_scan` sequences `validate_url`, `discover_endpoints`,
`enumerate_subdomains` and `analyze_structure`.  Each phase method wraps its
whole body in one `try/except` that logs the error; crucially the spider
section *and* the active-scan section live inside the single `try` of
`discover_endpoints`.  The embedding records, per run, which observable
actions happen, for an environment stating which sections raise. -/

namespace Zap

/-- Which sections of the scan raise an exception, and whether validation
succeeds. -/
structure Env where
  validateOk : Bool
  spiderRaises : Bool
  ascanRaises : Bool
  subdomainsRaises : Bool
  structureRaises : Bool
deriving DecidableEq, Repr

/-- Observable actions of one scan run. -/
inductive Step where
  | spiderCompleted
  | ascanStarted
  | ascanCompleted
  | endpointsSaved
  | discoveryErrorLogged
  | subdomainsSaved
  | subdomainsErrorLogged
  | structureSaved
  | structureErrorLogged
  | completedLogged
deriving DecidableEq, Repr

/-- `discover_endpoints`: one `try` block containing, in order, the spider
scan and monitoring, then `ascan.scan` and its monitoring, then the save.
An exception in the spider section jumps to the `except`, so `ascan.scan`
is never reached. -/
def discover_endpoints (e : Env) : List Step :=
  if e.spiderRaises then [Step.discoveryErrorLogged]
  else if e.ascanRaises then
    [Step.spiderCompleted, Step.ascanStarted, Step.discoveryErrorLogged]
  else
    [Step.spiderCompleted, Step.ascanStarted, Step.ascanCompleted,
     Step.endpointsSaved]

/-- `enumerate_subdomains`: its own `try/except` boundary. -/
def enumerate_subdomains (e : Env) : List Step :=
  if e.subdomainsRaises then [Step.subdomainsErrorLogged]
  else [Step.subdomainsSaved]

/-- `analyze_structure`: its own `try/except` boundary. -/
def analyze_structure (e : Env) : List Step :=
  if e.structureRaises then [Step.structureErrorLogged]
  else [Step.structureSaved]

/-- `run_scan`: abort on failed validation, otherwise run the three phase
methods in order and log completion unconditionally. -/
def run_scan (e : Env) : List Step :=
  if e.validateOk = false then []
  else
    discover_endpoints e ++ enumerate_subdomains e ++ analyze_structure e
      ++ [Step.completedLogged]

end Zap

/-! ## Reference definitions used to state properties -/

/-- The canonical signature as the specification words it (§3 invariant 2):
`(normalized_action, uppercased_trimmed_method, sorted triples)` — differing
from the code's `form_signature`, which uses the raw stripped action. -/
def canonical_signature_spec (f : Form) : Sig :=
  (normalize_action f.action, strip (upper f.method),
   List.insertionSort (· ≤ ·) (f.inputs.map inputTriple))

/-- Keep the first form of each signature class, drop every later form with
the same signature: the transparent statement of first-seen-wins
deduplication. -/
def keepFirstBySig : List Form → List Form
  | [] => []
  | f :: rest =>
    f :: keepFirstBySig
      (rest.filter (fun g => decide (form_signature g ≠ form_signature f)))
termination_by l => l.length
decreasing_by
  simp only [List.length_cons]
  exact Nat.lt_succ_of_le (List.length_filter_le _ _)

/-! ## Concrete inputs used by counterexamples and witnesses -/

/-- Attack surface `{url:"http://h/a", description:"first"}`. -/
def surfFirst : AttackSurface :=
  { url := "http://h/a".data, description := "first".data }

/-- Attack surface `{url:"http://h/a", description:"second"}`: same
normalized path as `surfFirst`, listed later. -/
def surfSecond : AttackSurface :=
  { url := "http://h/a".data, description := "second".data }

/-- What the first scenario form becomes after one consolidator run. -/
def procLoginA : Form :=
  { action := "/login".data, method := "POST".data, inputs := [userInput],
    feedback := some "SQLi risk".data }

/-- What the second scenario form becomes after one consolidator run. -/
def procLoginB : Form :=
  { action := "/login".data, method := "post".data, inputs := [userInput],
    feedback := some "SQLi risk".data }

/-- An input `{name:"a", type:"text"}`. -/
def inpA : FormInput := { name := "a".data, type := "text".data }

/-- An input `{name:"b", type:"hidden", required:true}`. -/
def inpB : FormInput :=
  { name := "b".data, type := "hidden".data, required := true }

/-- A form carrying inputs `[inpA, inpB]`. -/
def permFormAB : Form :=
  { action := "/p".data, method := "get".data, inputs := [inpA, inpB] }

/-- The same form with its inputs permuted. -/
def permFormBA : Form :=
  { action := "/p".data, method := "get".data, inputs := [inpB, inpA] }

/-- A form that already carries a non-empty feedback value. -/
def fbForm : Form :=
  { action := "/x".data, method := "get".data, feedback := some "keep".data }

/-- An environment in which validation succeeds and the spider section of
`discover_endpoints` raises. -/
def crawlErrEnv : Zap.Env :=
  { validateOk := true, spiderRaises := true, ascanRaises := false,
    subdomainsRaises := false, structureRaises := false }

/-! ## Dictionary lemmas -/

theorem dictGet?_dictSet_self (d : DMap) (k v : Str) :
    dictGet? (dictSet d k v) k = some v := by
  induction d with
  | nil => simp [dictSet, dictGet?]
  | cons kv d ih =>
    by_cases h : kv.1 = k
    · simp [dictSet, dictGet?, h]
    · simp [dictSet, dictGet?, h, ih]

theorem dictGet?_dictSet_ne (d : DMap) {k' k : Str} (v : Str) (h : k' ≠ k) :
    dictGet? (dictSet d k' v) k = dictGet? d k := by
  induction d with
  | nil => simp [dictSet, dictGet?, h]
  | cons kv d ih =>
    by_cases h1 : kv.1 = k'
    · simp [dictSet, dictGet?, h1, h]
    · simp [dictSet, dictGet?, h1, ih]

theorem dictHasKey_of_get (d : DMap) {k : Str} {v : Str}
    (h : dictGet? d k = some v) : dictHasKey d k = true := by
  induction d with
  | nil => simp [dictGet?] at h
  | cons kv d ih =>
    by_cases h1 : kv.1 = k
    · simp [dictHasKey, h1]
    · simp [dictGet?, h1] at h
      simp [dictHasKey, h1, ih h]

theorem endpointFold_preserve (eps : List Str) :
    ∀ (d : DMap) (k v : Str), dictGet? d k = some v →
      dictGet? (endpointFold d eps) k = some v := by
  induction eps with
  | nil => intro d k v h; simpa [endpointFold] using h
  | cons e eps ih =>
    intro d k v h
    have step :
        endpointFold d (e :: eps)
          = endpointFold
              (if dictHasKey d (surfacePath e) then d
               else dictSet d (surfacePath e) []) eps := by
      simp [endpointFold, List.foldl_cons]
    rw [step]
    by_cases hk : dictHasKey d (surfacePath e)
    · rw [if_pos hk]; exact ih d k v h
    · rw [if_neg hk]
      refine ih _ k v ?_
      have hne : surfacePath e ≠ k := by
        intro heq
        exact hk (heq ▸ dictHasKey_of_get d h)
      rw [dictGet?_dictSet_ne d [] hne]
      exact h

theorem surfaceFold_preserve (post : List AttackSurface) (k : Str)
    (hpost : ∀ t ∈ post, t.url ≠ [] → surfacePath t.url ≠ k) :
    ∀ d : DMap, dictGet? (surfaceFold d post) k = dictGet? d k := by
  induction post with
  | nil => intro d; simp [surfaceFold]
  | cons t post ih =>
    intro d
    have step :
        surfaceFold d (t :: post)
          = surfaceFold
              (if t.url = [] then d
               else dictSet d (surfacePath t.url) t.description) post := by
      simp [surfaceFold, List.foldl_cons]
    rw [step]
    have ih' := ih (fun t ht => hpost t (List.mem_cons_of_mem _ ht))
    by_cases hu : t.url = []
    · rw [if_pos hu]; exact ih' d
    · rw [if_neg hu, ih']
      exact dictGet?_dictSet_ne d _ (hpost t (List.mem_cons_self _ _) hu)

theorem surfaceFold_append (d : DMap) (l1 l2 : List AttackSurface) :
    surfaceFold d (l1 ++ l2) = surfaceFold (surfaceFold d l1) l2 := by
  simp [surfaceFold, List.foldl_append]

/-! ## Claim C3 -/

/-- Claim C3, counterexample: two attack surfaces whose urls normalize to the
same path `/a`; the description index maps `/a` to the description of the
*second* record, not the first as the claim states. -/
theorem C3_counterexample :
    dictGet? (build_description_map [surfFirst, surfSecond] []) "/a".data
      = some "second".data ∧
    dictGet? (build_description_map [surfFirst, surfSecond] []) "/a".data
      ≠ some "first".data := by decide

/-- Claim C3, amended: the description index obeys *last*-seen-wins for
attack surfaces: a record with a non-empty url whose normalized path is not
reused by any later attack-surface record determines the stored description,
and bare endpoints never override it. -/
theorem C3_amended (pre post : List AttackSurface) (s : AttackSurface)
    (eps : List Str) (h1 : s.url ≠ [])
    (h2 : ∀ t ∈ post, t.url ≠ [] → surfacePath t.url ≠ surfacePath s.url) :
    dictGet? (build_description_map (pre ++ s :: post) eps)
        (surfacePath s.url)
      = some s.description := by
  unfold build_description_map
  refine endpointFold_preserve eps _ _ _ ?_
  have hsplit : pre ++ s :: post = (pre ++ [s]) ++ post := by simp
  rw [hsplit, surfaceFold_append, surfaceFold_append,
    surfaceFold_preserve post _ h2]
  have hstep : surfaceFold (surfaceFold [] pre) [s]
      = dictSet (surfaceFold [] pre) (surfacePath s.url) s.description := by
    simp [surfaceFold, List.foldl_cons, h1]
  rw [hstep, dictGet?_dictSet_self]

/-- Witness for C3's amended theorem at the concrete records of the
counterexample. -/
theorem C3_witness :
    surfSecond.url ≠ [] ∧
    dictGet? (build_description_map ([surfFirst] ++ surfSecond :: []) [])
        (surfacePath surfSecond.url)
      = some surfSecond.description :=
  ⟨by decide, C3_amended [surfFirst] [] surfSecond [] (by decide) (by decide)⟩

/-! ## Claim C1 -/

/-- Claim C1, counterexample: consolidating the two scenario forms with the
scenario attack surface leaves *two* surviving forms, not one: deduplication
runs on the raw action strings `/login` and `http://t/login/`, which differ,
so the second form is not recognized as a duplicate in this run. -/
theorem C1_counterexample :
    (consolidate [loginFormA, loginFormB] [loginSurface] []).length = 2 ∧
    (consolidate [loginFormA, loginFormB] [loginSurface] []).length ≠ 1 := by
  decide

/-- Claim C1, amended: the scenario produces two surviving forms; both end
with action `/login` and feedback `SQLi risk`, the first with method `POST`,
the second with method `post`. -/
theorem C1_amended :
    consolidate [loginFormA, loginFormB] [loginSurface] []
      = [procLoginA, procLoginB] := by decide

/-! ## Claim C4 -/

theorem normalize_action_head (s : Str) :
    (normalize_action s).head? = some '/' := by
  unfold normalize_action
  by_cases h0 : s = []
  · simp [h0]
  · rw [if_neg h0]
    dsimp only
    generalize (if (urlparse s).scheme ≠ [] ∧ (urlparse s).netloc ≠ [] then
        (if (urlparse s).path = [] then ['/'] else (urlparse s).path)
      else s) = p
    by_cases hh : p.head? = some '/'
    · rw [if_pos hh]
      by_cases hfin : p ≠ ['/'] ∧ p.getLast? = some '/'
      · rw [if_pos hfin]
        cases p with
        | nil => simp at hh
        | cons c t =>
          simp only [List.head?_cons, Option.some.injEq] at hh
          subst hh
          cases t with
          | nil => exact absurd rfl hfin.1
          | cons x xs => simp
      · rw [if_neg hfin]; exact hh
    · rw [if_neg hh]
      by_cases hfin : ('/' :: p) ≠ ['/'] ∧ ('/' :: p).getLast? = some '/'
      · rw [if_pos hfin]
        match p with
        | [] => exact absurd rfl hfin.1
        | x :: xs => simp
      · rw [if_neg hfin]; simp

theorem normalize_action_ne_nil (s : Str) : normalize_action s ≠ [] := by
  intro h
  have := normalize_action_head s
  rw [h] at this
  simp at this

/-- Claim C4, counterexample: for the input `/a//` the code strips only one
trailing slash, so the result `/a/` still ends with `/` although it is not
exactly `/` — the universally quantified part of the claim fails. -/
theorem C4_counterexample :
    (normalize_action "/a//".data).getLast? = some '/' ∧
    normalize_action "/a//".data ≠ "/".data := by decide

/-- Claim C4, amended: the four concrete equations hold, and for every input
the result is non-empty and begins with `/`; but only one trailing slash is
stripped, so the absence of a trailing `/` is not guaranteed in general. -/
theorem C4_amended :
    normalize_action "http://host/a/b/".data = "/a/b".data ∧
    normalize_action [] = "/".data ∧
    normalize_action "a/b".data = "/a/b".data ∧
    normalize_action "/".data = "/".data ∧
    ∀ s : Str, normalize_action s ≠ [] ∧
      (normalize_action s).head? = some '/' :=
  ⟨by decide, by decide, by decide, by decide,
   fun s => ⟨normalize_action_ne_nil s, normalize_action_head s⟩⟩

/-! ## Claim C5 -/

theorem exactDesc_ne_nil {d : DMap} {na v : Str}
    (h : exactDesc d na = some v) : v ≠ [] := by
  unfold exactDesc at h
  cases hg : dictGet? d na with
  | none => rw [hg] at h; exact absurd h (by simp)
  | some w =>
    rw [hg] at h
    dsimp only at h
    by_cases hw : w ≠ []
    · rw [if_pos hw] at h
      cases h
      exact hw
    · rw [if_neg hw] at h
      exact absurd h (by simp)

theorem fuzzyDesc_ne_nil {d : DMap} {na v : Str}
    (h : fuzzyDesc d na = some v) : v ≠ [] := by
  unfold fuzzyDesc at h
  obtain ⟨kv, _, hkv⟩ := List.exists_of_findSome?_eq_some h
  by_cases hc : (List.isSuffixOf na kv.1 = true ∨ List.isSuffixOf kv.1 na = true)
      ∧ kv.2 ≠ []
  · rw [if_pos hc] at hkv
    cases hkv
    exact hc.2
  · rw [if_neg hc] at hkv
    exact absurd hkv (by simp)

/-- Claim C5, confirmed: a form entering the attachment step with non-empty
feedback always leaves it with non-empty feedback; empty descriptions are
filtered by the truthiness guards and `setdefault` never overwrites. -/
theorem C5_confirmed (d : DMap) (f : Form) (s : Str)
    (h1 : f.feedback = some s) (h2 : s ≠ []) :
    ∃ t, (processForm d f).feedback = some t ∧ t ≠ [] := by
  refine ⟨attachFB d (normalize_action f.action) f.feedback, rfl, ?_⟩
  unfold attachFB
  cases he : exactDesc d (normalize_action f.action) with
  | some v => exact exactDesc_ne_nil he
  | none =>
    cases hz : fuzzyDesc d (normalize_action f.action) with
    | some v => exact fuzzyDesc_ne_nil hz
    | none => rw [h1]; simpa using h2

/-- Witness for C5 at a concrete form with pre-attached feedback `keep` and
an empty description map. -/
theorem C5_witness :
    fbForm.feedback = some "keep".data ∧ "keep".data ≠ ([] : Str) ∧
    ∃ t, (processForm [] fbForm).feedback = some t ∧ t ≠ [] :=
  ⟨rfl, by decide, C5_confirmed [] fbForm "keep".data rfl (by decide)⟩

/-! ## Claim C7 -/

theorem insertionSort_eq_of_perm {l1 l2 : List Trip} (h : l1.Perm l2) :
    List.insertionSort (· ≤ ·) l1 = List.insertionSort (· ≤ ·) l2 := by
  haveI : IsTotal Trip (· ≤ ·) := ⟨le_total⟩
  haveI : IsTrans Trip (· ≤ ·) := ⟨fun _ _ _ => le_trans⟩
  haveI : IsAntisymm Trip (· ≤ ·) := ⟨fun _ _ => le_antisymm⟩
  exact List.eq_of_perm_of_sorted
    ((List.perm_insertionSort _ _).trans
      (h.trans (List.perm_insertionSort _ _).symm))
    (List.sorted_insertionSort _ _) (List.sorted_insertionSort _ _)

/-- Claim C7, confirmed: forms whose `(name,type,required)` triples agree as
multisets, with equal action and method, have equal signatures, and the later
of the two is dropped by the deduplication loop. -/
theorem C7_confirmed (f g : Form) (surfs : List AttackSurface) (eps : List Str)
    (ha : f.action = g.action) (hm : f.method = g.method)
    (hp : (f.inputs.map inputTriple).Perm (g.inputs.map inputTriple)) :
    form_signature f = form_signature g ∧
    consolidate [f, g] surfs eps
      = [processForm (build_description_map surfs eps) f] := by
  have hsig : form_signature f = form_signature g := by
    unfold form_signature
    rw [ha, hm, insertionSort_eq_of_perm hp]
  refine ⟨hsig, ?_⟩
  unfold consolidate consolidateGo
  rw [if_neg (by simp)]
  unfold consolidateGo
  rw [if_pos (by simp [hsig])]
  rfl

/-- Witness for C7 at two concrete forms with permuted inputs. -/
theorem C7_witness :
    permFormAB.action = permFormBA.action ∧
    permFormAB.method = permFormBA.method ∧
    (permFormAB.inputs.map inputTriple).Perm
      (permFormBA.inputs.map inputTriple) ∧
    (form_signature permFormAB = form_signature permFormBA ∧
     consolidate [permFormAB, permFormBA] [] []
       = [processForm (build_description_map [] []) permFormAB]) :=
  ⟨rfl, rfl, by decide,
   C7_confirmed permFormAB permFormBA [] [] rfl rfl (by decide)⟩

/-! ## Claim C8 -/

/-- Claim C8, counterexample: with the structure file absent the CLI prints a
diagnostic and writes nothing, but `main` simply returns, so the process
exits with code 0 — not non-zero as the claim states. -/
theorem C8_counterexample :
    (mainModel false true [] [] []).exitCode = 0 ∧
    (mainModel false true [] [] []).written = none ∧
    (mainModel false true [] [] []).printed ≠ [] := by decide

/-- Claim C8, amended: if either input file is absent the consolidator CLI
prints a diagnostic and performs no write, but exits with code 0. -/
theorem C8_amended (ee : Bool) (forms : List Form)
    (surfs : List AttackSurface) (eps : List Str) :
    ((mainModel false ee forms surfs eps).written = none ∧
     (mainModel false ee forms surfs eps).printed ≠ [] ∧
     (mainModel false ee forms surfs eps).exitCode = 0) ∧
    ((mainModel true false forms surfs eps).written = none ∧
     (mainModel true false forms surfs eps).printed ≠ [] ∧
     (mainModel true false forms surfs eps).exitCode = 0) := by
  refine ⟨⟨?_, ?_, ?_⟩, ⟨?_, ?_, ?_⟩⟩ <;> simp [mainModel]

/-! ## Claim C9 -/

/-- Claim C9, counterexample: with an exception in the spider section, the
error is logged and the session completes, but `ascan.scan` is never reached:
the active scan is *not* started, contradicting the claim. -/
theorem C9_counterexample :
    Zap.Step.discoveryErrorLogged ∈ Zap.run_scan crawlErrEnv ∧
    Zap.Step.completedLogged ∈ Zap.run_scan crawlErrEnv ∧
    Zap.Step.ascanStarted ∉ Zap.run_scan crawlErrEnv := by decide

/-- Claim C9, amended: an exception in the crawling section is logged and
the session still runs the subdomain and structure phases and reaches
completion, but the active scan — inside the same `try` block — is skipped
and never started. -/
theorem C9_amended (asc sub st : Bool) :
    Zap.Step.discoveryErrorLogged
        ∈ Zap.run_scan ⟨true, true, asc, sub, st⟩ ∧
    (Zap.Step.subdomainsSaved ∈ Zap.run_scan ⟨true, true, asc, sub, st⟩ ∨
     Zap.Step.subdomainsErrorLogged
        ∈ Zap.run_scan ⟨true, true, asc, sub, st⟩) ∧
    (Zap.Step.structureSaved ∈ Zap.run_scan ⟨true, true, asc, sub, st⟩ ∨
     Zap.Step.structureErrorLogged
        ∈ Zap.run_scan ⟨true, true, asc, sub, st⟩) ∧
    Zap.Step.completedLogged ∈ Zap.run_scan ⟨true, true, asc, sub, st⟩ ∧
    Zap.Step.ascanStarted ∉ Zap.run_scan ⟨true, true, asc, sub, st⟩ := by
  cases asc <;> cases sub <;> cases st <;> decide

/-! ## Claim C10 -/

theorem consolidateGo_mem (d : DMap) :
    ∀ (fs : List Form) (seen : List Sig) (f' : Form),
      f' ∈ consolidateGo d seen fs → ∃ f, f ∈ fs ∧ f' = processForm d f := by
  intro fs
  induction fs with
  | nil => intro seen f' h; simp [consolidateGo] at h
  | cons f rest ih =>
    intro seen f' h
    unfold consolidateGo at h
    by_cases hm : form_signature f ∈ seen
    · rw [if_pos hm] at h
      obtain ⟨g, hg, he⟩ := ih seen f' h
      exact ⟨g, List.mem_cons_of_mem _ hg, he⟩
    · rw [if_neg hm] at h
      rcases List.mem_cons.mp h with he | hmem
      · exact ⟨f, List.mem_cons_self _ _, he⟩
      · obtain ⟨g, hg, he⟩ := ih _ f' hmem
        exact ⟨g, List.mem_cons_of_mem _ hg, he⟩

/-- Claim C10, confirmed: every surviving form is the image under the loop
body of some input form, and the loop body only rewrites `action` and
`feedback`; `method`, `inputs` and all other keys are carried unchanged. -/
theorem C10_confirmed (forms : List Form) (surfs : List AttackSurface)
    (eps : List Str) (f' : Form) (h : f' ∈ consolidate forms surfs eps) :
    ∃ f, f ∈ forms ∧ f'.method = f.method ∧ f'.inputs = f.inputs ∧
      f'.extra = f.extra ∧ f'.action = normalize_action f.action := by
  obtain ⟨f, hf, he⟩ := consolidateGo_mem _ forms [] f' h
  exact ⟨f, hf, by rw [he]; rfl, by rw [he]; rfl, by rw [he]; rfl,
    by rw [he]; rfl⟩

/-- Witness for C10 at the first output form of the end-to-end scenario. -/
theorem C10_witness :
    procLoginA ∈ consolidate [loginFormA, loginFormB] [loginSurface] [] ∧
    ∃ f, f ∈ [loginFormA, loginFormB] ∧
      procLoginA.method = f.method ∧ procLoginA.inputs = f.inputs ∧
      procLoginA.extra = f.extra ∧
      procLoginA.action = normalize_action f.action :=
  ⟨by decide, C10_confirmed [loginFormA, loginFormB] [loginSurface] []
    procLoginA (by decide)⟩

/-! ## Claim C2 -/

theorem processForm_action (d : DMap) (f : Form) :
    (processForm d f).action = normalize_action f.action := rfl

theorem sig_processForm (d : DMap) {f : Form}
    (h : normalize_action f.action = f.action) :
    form_signature (processForm d f) = form_signature f := by
  unfold form_signature processForm
  simp [h]

theorem attachFB_attachFB (d : DMap) (na : Str) (old : Option Str) :
    attachFB d na (some (attachFB d na old)) = attachFB d na old := by
  unfold attachFB
  cases he : exactDesc d na with
  | some v => rfl
  | none =>
    cases hz : fuzzyDesc d na with
    | some v => rfl
    | none => simp

theorem processForm_idem (d : DMap) {f : Form}
    (h : normalize_action f.action = f.action) :
    processForm d (processForm d f) = processForm d f := by
  unfold processForm
  simp [h, attachFB_attachFB]

theorem consolidateGo_idem (d : DMap) :
    ∀ (fs : List Form), (∀ f ∈ fs, normalize_action f.action = f.action) →
      ∀ seen : List Sig,
        consolidateGo d seen (consolidateGo d seen fs)
          = consolidateGo d seen fs := by
  intro fs
  induction fs with
  | nil => intro _ seen; rfl
  | cons f rest ih =>
    intro h seen
    have hf : normalize_action f.action = f.action :=
      h f (List.mem_cons_self _ _)
    have hrest : ∀ g ∈ rest, normalize_action g.action = g.action :=
      fun g hg => h g (List.mem_cons_of_mem _ hg)
    by_cases hm : form_signature f ∈ seen
    · rw [consolidateGo, if_pos hm]
      exact ih hrest seen
    · rw [consolidateGo, if_neg hm]
      rw [consolidateGo, sig_processForm d hf, if_neg hm]
      rw [processForm_idem d hf]
      rw [ih hrest (form_signature f :: seen)]

/-- Claim C2, counterexample: on the end-to-end scenario input a second
consolidator run differs from the first — the two survivors of the first run
now share a signature (their actions were normalized to the same string), so
the second run drops one of them. -/
theorem C2_counterexample :
    consolidate (consolidate [loginFormA, loginFormB] [loginSurface] [])
        [loginSurface] []
      ≠ consolidate [loginFormA, loginFormB] [loginSurface] [] := by decide

/-- Claim C2, amended: the consolidator is idempotent on form catalogs whose
actions are already fixed points of `normalize_action`; for general inputs a
second run can drop further forms whose raw actions differed but normalized
to the same string. -/
theorem C2_amended (S : List Form) (surfs : List AttackSurface)
    (eps : List Str) (h : ∀ f ∈ S, normalize_action f.action = f.action) :
    consolidate (consolidate S surfs eps) surfs eps
      = consolidate S surfs eps :=
  consolidateGo_idem _ S h []

/-- Witness for C2's amended theorem on a normalized one-form catalog. -/
theorem C2_witness :
    (∀ f ∈ [loginFormA], normalize_action f.action = f.action) ∧
    consolidate (consolidate [loginFormA] [loginSurface] []) [loginSurface] []
      = consolidate [loginFormA] [loginSurface] [] :=
  ⟨by decide, C2_amended [loginFormA] [loginSurface] [] (by decide)⟩

/-! ## Claim C6 -/

theorem consolidateGo_congr (d : DMap) :
    ∀ (fs : List Form) (seen1 seen2 : List Sig),
      (∀ s, s ∈ seen1 ↔ s ∈ seen2) →
      consolidateGo d seen1 fs = consolidateGo d seen2 fs := by
  intro fs
  induction fs with
  | nil => intros; rfl
  | cons f rest ih =>
    intro seen1 seen2 h
    by_cases hm : form_signature f ∈ seen1
    · rw [consolidateGo, if_pos hm, consolidateGo, if_pos ((h _).mp hm)]
      exact ih seen1 seen2 h
    · have hm2 : form_signature f ∉ seen2 := fun hx => hm ((h _).mpr hx)
      rw [consolidateGo, if_neg hm, consolidateGo, if_neg hm2]
      congr 1
      refine ih _ _ ?_
      intro s
      simp [List.mem_cons, h s]

theorem consolidateGo_absorb (d : DMap) (s : Sig) :
    ∀ (fs : List Form) (seen : List Sig),
      consolidateGo d (s :: seen) fs
        = consolidateGo d seen
            (fs.filter (fun g => decide (form_signature g ≠ s))) := by
  intro fs
  induction fs with
  | nil => intros; rfl
  | cons g rest ih =>
    intro seen
    by_cases h1 : form_signature g = s
    · have hdrop :
          (g :: rest).filter (fun g => decide (form_signature g ≠ s))
            = rest.filter (fun g => decide (form_signature g ≠ s)) := by
        simp [List.filter_cons, h1]
      rw [hdrop, consolidateGo, if_pos (by simp [h1]), ih seen]
    · have hkeep :
          (g :: rest).filter (fun g => decide (form_signature g ≠ s))
            = g :: rest.filter (fun g => decide (form_signature g ≠ s)) := by
        simp [List.filter_cons, h1]
      rw [hkeep]
      by_cases h2 : form_signature g ∈ seen
      · rw [consolidateGo, if_pos (List.mem_cons_of_mem _ h2),
          consolidateGo, if_pos h2]
        exact ih seen
      · have hnot : form_signature g ∉ s :: seen := by
          simp [List.mem_cons, h1, h2]
        rw [consolidateGo, if_neg hnot, consolidateGo, if_neg h2]
        congr 1
        rw [consolidateGo_congr d rest (form_signature g :: s :: seen)
          (s :: form_signature g :: seen)
          (fun t => by simp [List.mem_cons]; tauto)]
        exact ih (form_signature g :: seen)

theorem consolidate_eq_keepFirst (d : DMap) :
    ∀ fs : List Form,
      consolidateGo d [] fs = (keepFirstBySig fs).map (processForm d)
  | [] => by rw [keepFirstBySig]; rfl
  | f :: rest => by
    rw [consolidateGo, if_neg (List.not_mem_nil _)]
    rw [consolidateGo_absorb d (form_signature f) rest []]
    rw [consolidate_eq_keepFirst d
      (rest.filter (fun g => decide (form_signature g ≠ form_signature f)))]
    rw [keepFirstBySig]
    simp [List.map_cons]
termination_by fs => fs.length
decreasing_by
  simp only [List.length_cons]
  exact Nat.lt_succ_of_le (List.length_filter_le _ _)

theorem keepFirstBySig_sublist : ∀ fs : List Form, List.Sublist (keepFirstBySig fs) fs
  | [] => by rw [keepFirstBySig]
  | f :: rest => by
    rw [keepFirstBySig]
    exact List.Sublist.cons₂ f
      ((keepFirstBySig_sublist _).trans (List.filter_sublist _))
termination_by fs => fs.length
decreasing_by
  simp only [List.length_cons]
  exact Nat.lt_succ_of_le (List.length_filter_le _ _)

/-- Claim C6, counterexample: the two scenario forms bear the *same*
canonical signature in the spec's sense (normalized action), yet both
survive one consolidator run — the later form with that canonical signature
is not dropped, because the code's signature uses the raw action. -/
theorem C6_counterexample :
    canonical_signature_spec loginFormA = canonical_signature_spec loginFormB ∧
    (consolidate [loginFormA, loginFormB] [loginSurface] []).length = 2 := by
  decide

/-- Claim C6, amended: with the signature the code computes — raw stripped
action, uppercased stripped method, sorted input triples — the consolidator
keeps exactly the first form of each signature class, in input order (the
survivor list is a sublist of the input), and applies the action/feedback
rewrite to each survivor. -/
theorem C6_amended (forms : List Form) (surfs : List AttackSurface)
    (eps : List Str) :
    consolidate forms surfs eps
      = (keepFirstBySig forms).map
          (processForm (build_description_map surfs eps)) ∧
    List.Sublist (keepFirstBySig forms) forms :=
  ⟨consolidate_eq_keepFirst _ forms, keepFirstBySig_sublist forms⟩
